import Mathlib

/-!
Shallow embedding of the shift-assignment conflict engine of
`src/controller/shiftAssignController.js`.

Dates are modelled as `Int` (milliseconds since the Unix epoch, the value
JavaScript `Date` comparisons operate on); an absent (`null`) date is
`Option.none`.  The persistent store is a list of records; Prisma's
`findMany`/`findFirst`/`update`/`createMany` become list filter / find /
map / append.  Each controller returns its HTTP response modelled as an
inductive result, paired with the store after the call.
-/

/-- A candidate or stored date range: required `startDate`, optional
(`null` = open-ended) `endDate`. -/
structure DateRange where
  startDate : Int
  endDate : Option Int
deriving DecidableEq

/-- Epoch milliseconds of `new Date("9999-12-31")`, the sentinel the
controller substitutes for a missing candidate `endDate` in the overlap
query (lines 90 and 396). -/
def maxSentinel : Int := 253402214400000

/-- The overlap test of the Prisma query at lines 87-97 (and identically at
lines 393-403), for one existing assignment range `ex` against the
candidate range `cand`:
`OR` of
  `AND [ ex.startDate <= (cand.endDate or 9999-12-31), ex.endDate >= cand.startDate ]`
(a `gte` filter on a nullable column is false when the column is `null`), and
  `AND [ ex.startDate <= cand.startDate, ex.endDate = null ]`. -/
def overlapsImpl (cand ex : DateRange) : Bool :=
  (decide (ex.startDate ≤ cand.endDate.getD maxSentinel) &&
    (match ex.endDate with
      | some e => decide (cand.startDate ≤ e)
      | none => false))
  || (decide (ex.startDate ≤ cand.startDate) && ex.endDate.isNone)

/-- Modelled from the spec (Section 4.1), for comparison with `overlapsImpl`:
two ranges A, B overlap iff `A.start <= (B.end or +infinity)` and
`(A.end or +infinity) >= B.start`. -/
def specOverlaps (a b : DateRange) : Bool :=
  (match b.endDate with
    | some e => decide (a.startDate ≤ e)
    | none => true)
  && (match a.endDate with
    | some e => decide (b.startDate ≤ e)
    | none => true)

/-- A row of `shifts` (the fields the controller reads). -/
structure Shift where
  id : Nat
  companyId : Nat
  deletedAt : Option Int
deriving DecidableEq

/-- A row of `shift_assignments`. -/
structure Assignment where
  id : Nat
  shiftId : Nat
  userId : Nat
  startDate : Int
  endDate : Option Int
  roleId : Nat
  notes : Option String
  status : String
  deletedAt : Option Int
deriving DecidableEq

/-- The store: the `shifts` and `shift_assignments` tables. -/
structure Db where
  shifts : List Shift
  assignments : List Assignment
deriving DecidableEq

/-- The body of a `createShiftAssignments` request (already parsed: the
required fields are present by typing; `user_ids` may still be empty). -/
structure CreateReq where
  shiftId : Nat
  userIds : List Nat
  companyId : Nat
  startDate : Int
  endDate : Option Int
  roleId : Nat
  notes : Option String
deriving DecidableEq

/-- The responses `createShiftAssignments` can produce.
`invalidInput` is the 400 of the field validation, `shiftNotFound` the 404,
`allBlocked` the 400 at lines 116-124 (body carries only the two conflict
lists, under keys `duplicates`/`overlapping`), and `success` the 201 whose
`data` object carries `created`, `skipped`, `duplicateUserIds`,
`overlappingUserIds`. -/
inductive CreateRes where
  | invalidInput
  | shiftNotFound
  | allBlocked (duplicates overlapping : List Nat)
  | success (created skipped : Nat) (duplicateUserIds overlappingUserIds : List Nat)
deriving DecidableEq

/-- The `created` count carried by a `createShiftAssignments` response body,
`none` when the body has no such field. -/
def createdField : CreateRes → Option Nat
  | .success c _ _ _ => some c
  | _ => none

/-- The candidate range of a create request. -/
def candRange (req : CreateReq) : DateRange :=
  ⟨req.startDate, req.endDate⟩

/-- The same-shift duplicate query (lines 69-79): user ids of active,
non-deleted assignments on the requested shift held by requested users. -/
def duplicateIds (db : Db) (req : CreateReq) : List Nat :=
  (db.assignments.filter (fun a =>
    a.shiftId == req.shiftId && req.userIds.contains a.userId &&
      a.status == "active" && a.deletedAt.isNone)).map (·.userId)

/-- The overlap query (lines 82-104): user ids of active, non-deleted
assignments of requested users, on any shift, whose range passes
`overlapsImpl` against the candidate range. -/
def overlappingIds (db : Db) (req : CreateReq) : List Nat :=
  (db.assignments.filter (fun a =>
    req.userIds.contains a.userId && a.status == "active" &&
      a.deletedAt.isNone &&
      overlapsImpl (candRange req) ⟨a.startDate, a.endDate⟩)).map (·.userId)

/-- Membership in the combined blocked set (lines 107-110). -/
def blocksUser (db : Db) (req : CreateReq) (u : Nat) : Bool :=
  (duplicateIds db req).contains u || (overlappingIds db req).contains u

/-- `usersToAssign` (lines 112-114): the requested list filtered by the
blocked set — without deduplication of the request list itself. -/
def usersToAssign (db : Db) (req : CreateReq) : List Nat :=
  req.userIds.filter (fun u => !blocksUser db req u)

/-- The records handed to `createMany` (lines 127-135), one per entry of
`usersToAssign`, with fresh ids from `nextId` on. -/
def mkAssignments (req : CreateReq) : List Nat → Nat → List Assignment
  | [], _ => []
  | u :: us, n =>
    { id := n, shiftId := req.shiftId, userId := u,
      startDate := req.startDate, endDate := req.endDate,
      roleId := req.roleId, notes := req.notes,
      status := "active", deletedAt := none } :: mkAssignments req us (n + 1)

/-- `endDate` strictly before `startDate` (the check at line 43 / line 379;
a `null` end never fails it). -/
def endBeforeStart (s : Int) (e : Option Int) : Bool :=
  match e with
  | some e => decide (e < s)
  | none => false

/-- The shift lookup of lines 51-57: first shift with the requested id,
belonging to the requested company and not soft-deleted. -/
def findShift (db : Db) (req : CreateReq) : Option Shift :=
  db.shifts.find? (fun s =>
    s.id == req.shiftId && s.companyId == req.companyId && s.deletedAt.isNone)

/-- `createShiftAssignments` (lines 12-165): validation, shift lookup,
conflict detection, partition, batch insert.  `nextId` is the next id the
store would give a created row. -/
def createShiftAssignments (req : CreateReq) (db : Db) (nextId : Nat) :
    CreateRes × Db :=
  if req.userIds.isEmpty then (.invalidInput, db)
  else if endBeforeStart req.startDate req.endDate then (.invalidInput, db)
  else
    match findShift db req with
    | none => (.shiftNotFound, db)
    | some _ =>
      let dups := duplicateIds db req
      let ovs := overlappingIds db req
      let toAssign := usersToAssign db req
      if toAssign.isEmpty then
        (.allBlocked dups ovs, db)
      else
        let newRows := mkAssignments req toAssign nextId
        (.success newRows.length (req.userIds.length - toAssign.length)
            dups ovs,
          { db with assignments := db.assignments ++ newRows })

/-- The body of an `updateShiftAssignment` request; `none` = field omitted. -/
structure UpdateReq where
  startDate : Option Int
  endDate : Option Int
  status : Option String
  notes : Option String
  roleId : Option Nat
deriving DecidableEq

/-- The responses of update / toggle: 404, 400 (end before start), 400
(overlap conflict), or 200 with the updated record. -/
inductive UpdateRes where
  | notFound
  | invalidInput
  | conflict
  | success (a : Assignment)
deriving DecidableEq

/-- `findFirst` on id with `deleted_at: null` (lines 362-367, 455-460,
508-513). -/
def findActive (db : Db) (i : Nat) : Option Assignment :=
  db.assignments.find? (fun a => a.id == i && a.deletedAt.isNone)

/-- `parsedStart` of the update (line 376): the request value, else the
stored one. -/
def resolvedStart (req : UpdateReq) (a : Assignment) : Int :=
  req.startDate.getD a.startDate

/-- `parsedEnd` of the update (line 377): the request value, else the stored
one (an absent request field can never clear a stored `endDate`). -/
def resolvedEnd (req : UpdateReq) (a : Assignment) : Option Int :=
  match req.endDate with
  | some e => some e
  | none => a.endDate

/-- The overlap `findFirst` of lines 387-405: first other record (`id` not
`i`) of the same worker, active and non-deleted, whose range passes the
implemented overlap test against the resulting range `r`. -/
def findConflicting (db : Db) (i : Nat) (uid : Nat) (r : DateRange) :
    Option Assignment :=
  db.assignments.find? (fun b =>
    b.id != i && b.userId == uid && b.status == "active" &&
      b.deletedAt.isNone && overlapsImpl r ⟨b.startDate, b.endDate⟩)

/-- `updateShiftAssignment` (lines 350-442): find, default missing fields,
date-order check, overlap check excluding the edited record, then write. -/
def updateShiftAssignment (i : Nat) (req : UpdateReq) (db : Db) :
    UpdateRes × Db :=
  match findActive db i with
  | none => (.notFound, db)
  | some a =>
    let ps := resolvedStart req a
    let pe := resolvedEnd req a
    if endBeforeStart ps pe then (.invalidInput, db)
    else
      match findConflicting db i a.userId ⟨ps, pe⟩ with
      | some _ => (.conflict, db)
      | none =>
        let updated : Assignment :=
          { a with
            startDate := ps,
            endDate := pe,
            status := req.status.getD a.status,
            notes := (match req.notes with
              | some n => some n
              | none => a.notes),
            roleId := req.roleId.getD a.roleId }
        (.success updated,
          { db with assignments :=
              db.assignments.map (fun b => if b.id == i then updated else b) })

/-- The status flip of line 469. -/
def flipStatus (s : String) : String :=
  if s == "active" then "inactive" else "active"

/-- `toggleShiftAssignmentStatus` (lines 444-495): find, flip `status`,
write only `status` — no range re-validation of any kind. -/
def toggleShiftAssignmentStatus (i : Nat) (db : Db) : UpdateRes × Db :=
  match findActive db i with
  | none => (.notFound, db)
  | some a =>
    let updated := { a with status := flipStatus a.status }
    (.success updated,
      { db with assignments :=
          db.assignments.map (fun b => if b.id == i then updated else b) })

/-- Responses of the soft delete. -/
inductive DeleteRes where
  | notFound
  | ok
deriving DecidableEq

/-- `deleteShiftAssignment` (lines 497-541): find a non-deleted record by
id, set `deleted_at = now` and `status = "inactive"`. -/
def deleteShiftAssignment (i : Nat) (now : Int) (db : Db) : DeleteRes × Db :=
  match findActive db i with
  | none => (.notFound, db)
  | some a =>
    let updated := { a with deletedAt := some now, status := "inactive" }
    (.ok,
      { db with assignments :=
          db.assignments.map (fun b => if b.id == i then updated else b) })

/-! ## Range-level facts about the overlap predicate -/

/-- **C1** (counterexample).  The detector's overlap test does not agree with
the spec's range-overlap definition: candidate range `[5, 15]` versus an
existing open-ended assignment starting at `10` is an overlap per the spec
(`5 <= +inf` and `15 >= 10`), yet the implemented test reports no overlap
(its `null`-end branch requires `existing.start <= candidate.start`).
Concretely, with worker 7 holding the single active open-ended assignment
`[10, null)` on shift 1, a batch create of worker 7 on shift 2 over
`[5, 15]` succeeds with empty conflict sets instead of reporting the
worker as overlapping. -/
theorem overlap_detector_misses_open_ended :
    specOverlaps ⟨5, some 15⟩ ⟨10, none⟩ = true
    ∧ overlapsImpl ⟨5, some 15⟩ ⟨10, none⟩ = false
    ∧ (createShiftAssignments ⟨2, [7], 1, 5, some 15, 3, none⟩
        { shifts := [⟨2, 1, none⟩],
          assignments := [⟨1, 1, 7, 10, none, 3, none, "active", none⟩] }
        2).1 = .success 1 0 [] [] := by
  decide

/-- **C1** (amended).  The detector's overlap test agrees with the spec's
range-overlap definition whenever the existing assignment has an `endDate`
(given the existing start does not exceed the `9999-12-31` sentinel); when
the existing assignment's `endDate` is absent, the detector instead reports
an overlap exactly when `existing.start <= candidate.start`. -/
theorem overlapsImpl_eq_spec_amended (cand ex : DateRange)
    (h : ex.startDate ≤ maxSentinel) :
    overlapsImpl cand ex = true ↔
      (match ex.endDate with
        | none => ex.startDate ≤ cand.startDate
        | some _ => specOverlaps cand ex = true) := by
  obtain ⟨cs, ce⟩ := cand
  obtain ⟨es, ee⟩ := ex
  cases ee <;> cases ce <;>
    simp_all [overlapsImpl, specOverlaps] <;> omega

/-- Witness for `overlapsImpl_eq_spec_amended` at candidate `[0, 5]` and
existing `[3, 10]`. -/
theorem overlapsImpl_eq_spec_amended_witness :
    (3 : Int) ≤ maxSentinel
    ∧ (overlapsImpl ⟨0, some 5⟩ ⟨3, some 10⟩ = true ↔
        specOverlaps ⟨0, some 5⟩ ⟨3, some 10⟩ = true) :=
  ⟨by decide, overlapsImpl_eq_spec_amended ⟨0, some 5⟩ ⟨3, some 10⟩ (by decide)⟩

/-- **C5** (counterexample).  The implemented overlap relation is not
symmetric: an open-ended range starting at 10 "overlaps" `[5, 15]` when it
is the existing side, but `[5, 15]` does not "overlap" it when the
open-ended range is the existing side. -/
theorem overlapsImpl_not_symm :
    overlapsImpl ⟨10, none⟩ ⟨5, some 15⟩ = true
    ∧ overlapsImpl ⟨5, some 15⟩ ⟨10, none⟩ = false := by
  decide

/-- **C5** (amended).  Restricted to ranges that both carry an `endDate`,
the implemented overlap relation is symmetric. -/
theorem overlapsImpl_symm_bounded (A B : DateRange)
    (ha : A.endDate.isSome = true) (hb : B.endDate.isSome = true) :
    overlapsImpl A B = overlapsImpl B A := by
  obtain ⟨as, ae⟩ := A
  obtain ⟨bs, be⟩ := B
  cases ae <;> cases be <;> simp_all [overlapsImpl, Bool.and_comm]

/-- Witness for `overlapsImpl_symm_bounded` at `[0, 5]` and `[3, 10]`. -/
theorem overlapsImpl_symm_bounded_witness :
    (Option.some (5 : Int)).isSome = true
    ∧ overlapsImpl ⟨0, some 5⟩ ⟨3, some 10⟩ = overlapsImpl ⟨3, some 10⟩ ⟨0, some 5⟩ :=
  ⟨by decide, overlapsImpl_symm_bounded ⟨0, some 5⟩ ⟨3, some 10⟩ (by decide) (by decide)⟩

/-! ## Helper lemmas on the batch planner -/

lemma mkAssignments_map_userId (req : CreateReq) (us : List Nat) (n : Nat) :
    (mkAssignments req us n).map (·.userId) = us := by
  induction us generalizing n with
  | nil => rfl
  | cons u us ih => simp [mkAssignments, ih]

lemma mkAssignments_length (req : CreateReq) (us : List Nat) (n : Nat) :
    (mkAssignments req us n).length = us.length := by
  induction us generalizing n with
  | nil => rfl
  | cons u us ih => simp [mkAssignments, ih]

lemma mkAssignments_fields (req : CreateReq) (us : List Nat) (n : Nat) :
    ∀ a ∈ mkAssignments req us n,
      a.status = "active" ∧ a.shiftId = req.shiftId ∧
        a.startDate = req.startDate ∧ a.endDate = req.endDate := by
  induction us generalizing n with
  | nil => intro a h; simp [mkAssignments] at h
  | cons u us ih =>
    intro a h
    rw [mkAssignments, List.mem_cons] at h
    rcases h with h | h
    · subst h; exact ⟨rfl, rfl, rfl, rfl⟩
    · exact ih (n + 1) a h

lemma mkAssignments_countP_userId (req : CreateReq) (us : List Nat)
    (n w : Nat) :
    (mkAssignments req us n).countP (fun b => b.userId == w) =
      us.count w := by
  induction us generalizing n with
  | nil => rfl
  | cons u us ih =>
    simp [mkAssignments, List.countP_cons, List.count_cons, ih]

lemma skipped_eq_countP (db : Db) (req : CreateReq) :
    req.userIds.length - (usersToAssign db req).length =
      req.userIds.countP (fun u => blocksUser db req u) := by
  have h := List.length_eq_countP_add_countP
    (fun u => blocksUser db req u) req.userIds
  have h2 : (usersToAssign db req).length =
      req.userIds.countP (fun u => !blocksUser db req u) := by
    rw [usersToAssign, List.countP_eq_length_filter]
  have h3 : req.userIds.countP (fun u => decide ¬(blocksUser db req u = true))
      = req.userIds.countP (fun u => !blocksUser db req u) := by
    apply List.countP_congr
    intro u _
    cases blocksUser db req u <;> simp
  omega

/-! ## Batch planner claims -/

/-- **C2**.  When at least one requested worker is not blocked, the planner
creates one active assignment per entry of `usersToAssign` (for a
duplicate-free request list: per non-blocked worker), and responds with
`created` = number of non-blocked entries, `skipped` = number of blocked
entries, carrying the duplicate and overlapping id lists. -/
theorem create_partial_success (req : CreateReq) (db : Db) (nextId : Nat)
    (hne : req.userIds ≠ [])
    (hdate : endBeforeStart req.startDate req.endDate = false)
    (hshift : (findShift db req).isSome = true)
    (hnd : req.userIds.Nodup)
    (hsome : usersToAssign db req ≠ []) :
    (createShiftAssignments req db nextId).1 =
      .success (usersToAssign db req).length
        (req.userIds.countP (fun u => blocksUser db req u))
        (duplicateIds db req) (overlappingIds db req)
    ∧ (createShiftAssignments req db nextId).2.assignments =
        db.assignments ++ mkAssignments req (usersToAssign db req) nextId
    ∧ (mkAssignments req (usersToAssign db req) nextId).map (·.userId) =
        usersToAssign db req
    ∧ (usersToAssign db req).Nodup
    ∧ ∀ a ∈ mkAssignments req (usersToAssign db req) nextId,
        a.status = "active" ∧ a.shiftId = req.shiftId := by
  obtain ⟨s, hs⟩ := Option.isSome_iff_exists.mp hshift
  have hie : req.userIds.isEmpty = false := by
    cases h : req.userIds with
    | nil => exact absurd h hne
    | cons a l => rfl
  have hta : (usersToAssign db req).isEmpty = false := by
    cases h : usersToAssign db req with
    | nil => exact absurd h hsome
    | cons a l => rfl
  refine ⟨?_, ?_, mkAssignments_map_userId .., List.Nodup.filter _ hnd, ?_⟩
  · simp [createShiftAssignments, hie, hdate, hs, hta,
      mkAssignments_length, skipped_eq_countP]
  · simp [createShiftAssignments, hie, hdate, hs, hta]
  · intro a ha
    exact ⟨(mkAssignments_fields req _ nextId a ha).1,
      (mkAssignments_fields req _ nextId a ha).2.1⟩

/-- The store of the C2 / C3 scenarios: one company-1 shift (id 1) and one
active assignment of worker 10 on that shift over `[0, 100]`. -/
def dbOneActive : Db :=
  { shifts := [⟨1, 1, none⟩],
    assignments := [⟨1, 1, 10, 0, some 100, 3, none, "active", none⟩] }

/-- The C2 request: workers 10 and 20 on shift 1 over `[200, 300]` (worker
10 is a same-shift duplicate, worker 20 is free). -/
def reqTwoWorkers : CreateReq := ⟨1, [10, 20], 1, 200, some 300, 3, none⟩

/-- Witness for `create_partial_success`: the spec's own example, workers
`[10, 20]` with worker 10 already active on the shift, yields
`created = 1`, `skipped = 1`, `duplicateUserIds = [10]`. -/
theorem create_partial_success_witness :
    (reqTwoWorkers.userIds ≠ []
      ∧ endBeforeStart reqTwoWorkers.startDate reqTwoWorkers.endDate = false
      ∧ (findShift dbOneActive reqTwoWorkers).isSome = true
      ∧ reqTwoWorkers.userIds.Nodup
      ∧ usersToAssign dbOneActive reqTwoWorkers ≠ [])
    ∧ ((createShiftAssignments reqTwoWorkers dbOneActive 2).1 =
        .success 1 1 [10] []
      ∧ (createShiftAssignments reqTwoWorkers dbOneActive 2).2.assignments =
          dbOneActive.assignments ++ mkAssignments reqTwoWorkers [20] 2
      ∧ (mkAssignments reqTwoWorkers [20] 2).map (·.userId) = [20]
      ∧ ([20] : List Nat).Nodup
      ∧ ∀ a ∈ mkAssignments reqTwoWorkers [20] 2,
          a.status = "active" ∧ a.shiftId = reqTwoWorkers.shiftId) :=
  ⟨⟨by decide, by decide, by decide, by decide, by decide⟩,
    create_partial_success reqTwoWorkers dbOneActive 2
      (by decide) (by decide) (by decide) (by decide) (by decide)⟩

/-- **C3** (counterexample).  When every requested worker is blocked the
rejection response is NOT of the same shape as the success response: the
400 body of lines 116-124 carries only the two conflict lists (keys
`duplicates`/`overlapping`) and no `created` (or `skipped`) count at all,
so its `created` field is absent rather than `0`.  Concretely: sole
requested worker 10 is both a same-shift duplicate and overlapping. -/
theorem create_all_blocked_shape :
    createShiftAssignments ⟨1, [10], 1, 50, some 60, 3, none⟩ dbOneActive 9 =
      (.allBlocked [10] [10], dbOneActive)
    ∧ createdField
        (createShiftAssignments ⟨1, [10], 1, 50, some 60, 3, none⟩
          dbOneActive 9).1 = none := by
  decide

/-- **C3** (amended).  When every requested worker is blocked, the planner
writes no records and returns the rejection carrying both the duplicate and
the overlapping worker-id lists; the rejection body carries no `created`
count (it does not share the success shape). -/
theorem create_all_blocked (req : CreateReq) (db : Db) (nextId : Nat)
    (hne : req.userIds ≠ [])
    (hdate : endBeforeStart req.startDate req.endDate = false)
    (hshift : (findShift db req).isSome = true)
    (hall : usersToAssign db req = []) :
    createShiftAssignments req db nextId =
      (.allBlocked (duplicateIds db req) (overlappingIds db req), db)
    ∧ createdField (createShiftAssignments req db nextId).1 = none := by
  obtain ⟨s, hs⟩ := Option.isSome_iff_exists.mp hshift
  have hie : req.userIds.isEmpty = false := by
    cases h : req.userIds with
    | nil => exact absurd h hne
    | cons a l => rfl
  have hta : (usersToAssign db req).isEmpty = true := by
    rw [hall]; rfl
  have hrun : createShiftAssignments req db nextId =
      (.allBlocked (duplicateIds db req) (overlappingIds db req), db) := by
    simp [createShiftAssignments, hie, hdate, hs, hta]
  exact ⟨hrun, by rw [hrun]; rfl⟩

/-- Witness for `create_all_blocked` at the concrete all-blocked store. -/
theorem create_all_blocked_witness :
    ((⟨1, [10], 1, 50, some 60, 3, none⟩ : CreateReq).userIds ≠ []
      ∧ endBeforeStart (50 : Int) (some 60) = false
      ∧ (findShift dbOneActive ⟨1, [10], 1, 50, some 60, 3, none⟩).isSome = true
      ∧ usersToAssign dbOneActive ⟨1, [10], 1, 50, some 60, 3, none⟩ = [])
    ∧ (createShiftAssignments ⟨1, [10], 1, 50, some 60, 3, none⟩
          dbOneActive 9 = (.allBlocked [10] [10], dbOneActive)
      ∧ createdField (createShiftAssignments ⟨1, [10], 1, 50, some 60, 3, none⟩
          dbOneActive 9).1 = none) :=
  ⟨⟨by decide, by decide, by decide, by decide⟩,
    create_all_blocked ⟨1, [10], 1, 50, some 60, 3, none⟩ dbOneActive 9
      (by decide) (by decide) (by decide) (by decide)⟩

/-- **C9**.  The planner does not deduplicate the request list: for a
worker `w` that is not blocked, one created row per occurrence of `w` in
`user_ids` is handed to the batch insert — all with `status = "active"` and
the same shift — so a repeated id yields that many simultaneous active
assignments. -/
theorem create_no_dedup (req : CreateReq) (db : Db) (nextId w : Nat)
    (hdate : endBeforeStart req.startDate req.endDate = false)
    (hshift : (findShift db req).isSome = true)
    (hmem : w ∈ req.userIds)
    (hw : blocksUser db req w = false) :
    (createShiftAssignments req db nextId).2.assignments =
      db.assignments ++ mkAssignments req (usersToAssign db req) nextId
    ∧ (mkAssignments req (usersToAssign db req) nextId).countP
        (fun b => b.userId == w) = req.userIds.count w
    ∧ ∀ a ∈ mkAssignments req (usersToAssign db req) nextId,
        a.status = "active" ∧ a.shiftId = req.shiftId := by
  obtain ⟨s, hs⟩ := Option.isSome_iff_exists.mp hshift
  have hmem' : w ∈ usersToAssign db req := by
    rw [usersToAssign]
    exact List.mem_filter.mpr ⟨hmem, by simp [hw]⟩
  have hie : req.userIds.isEmpty = false := by
    cases h : req.userIds with
    | nil => rw [h] at hmem; cases hmem
    | cons a l => rfl
  have hta : (usersToAssign db req).isEmpty = false := by
    cases h : usersToAssign db req with
    | nil => rw [h] at hmem'; cases hmem'
    | cons a l => rfl
  refine ⟨?_, ?_, ?_⟩
  · simp [createShiftAssignments, hie, hdate, hs, hta]
  · rw [mkAssignments_countP_userId, usersToAssign]
    exact List.count_filter (by simp [hw])
  · intro a ha
    exact ⟨(mkAssignments_fields req _ nextId a ha).1,
      (mkAssignments_fields req _ nextId a ha).2.1⟩

/-- The C9 scenario: an empty assignment table and a request naming worker
5 twice. -/
def reqRepeated : CreateReq := ⟨1, [5, 5], 1, 0, some 10, 3, none⟩

/-- The C9 store: shift 1 of company 1, no assignments at all. -/
def dbEmptyAssignments : Db := { shifts := [⟨1, 1, none⟩], assignments := [] }

/-- Witness for `create_no_dedup`: worker 5 requested twice on an empty
store ends up with two active rows for the same shift. -/
theorem create_no_dedup_witness :
    (endBeforeStart reqRepeated.startDate reqRepeated.endDate = false
      ∧ (findShift dbEmptyAssignments reqRepeated).isSome = true
      ∧ 5 ∈ reqRepeated.userIds
      ∧ blocksUser dbEmptyAssignments reqRepeated 5 = false)
    ∧ ((createShiftAssignments reqRepeated dbEmptyAssignments 7).2.assignments =
        [] ++ mkAssignments reqRepeated [5, 5] 7
      ∧ (mkAssignments reqRepeated [5, 5] 7).countP
          (fun b => b.userId == 5) = 2
      ∧ ∀ a ∈ mkAssignments reqRepeated [5, 5] 7,
          a.status = "active" ∧ a.shiftId = reqRepeated.shiftId) :=
  ⟨⟨by decide, by decide, by decide, by decide⟩,
    create_no_dedup reqRepeated dbEmptyAssignments 7 5
      (by decide) (by decide) (by decide) (by decide)⟩

/-! ## Mutator claims -/

/-- The C4 counterexample store: worker 7 holds assignment 1 (`[40, 50]`,
the one being edited) and assignment 2, open-ended from 10 (`[10, null)`),
both active and non-deleted. -/
def dbUpdateMiss : Db :=
  { shifts := [⟨1, 1, none⟩],
    assignments :=
      [⟨1, 1, 7, 40, some 50, 3, none, "active", none⟩,
       ⟨2, 2, 7, 10, none, 3, none, "active", none⟩] }

/-- **C4** (counterexample).  An update whose resulting range `[5, 15]`
overlaps (per the spec's range-overlap definition) the worker's other
active assignment `[10, null)` is NOT rejected: the implemented overlap
check misses the open-ended record that starts inside the resulting range,
so the update succeeds and the stored record changes. -/
theorem update_overlap_missed :
    specOverlaps ⟨5, some 15⟩ ⟨10, none⟩ = true
    ∧ (updateShiftAssignment 1 ⟨some 5, some 15, none, none, none⟩
        dbUpdateMiss).1 =
        .success ⟨1, 1, 7, 5, some 15, 3, none, "active", none⟩
    ∧ (updateShiftAssignment 1 ⟨some 5, some 15, none, none, none⟩
        dbUpdateMiss).2 ≠ dbUpdateMiss := by
  decide

/-- **C4** (amended).  When the resulting range of an update on an existing
non-deleted assignment overlaps — per the implemented overlap test
`overlapsImpl` — some other active non-deleted assignment of the same
worker, the update is rejected with Conflict and the store is left
completely unchanged. -/
theorem update_conflict_rejected (i : Nat) (req : UpdateReq) (db : Db)
    (a b : Assignment)
    (hfind : findActive db i = some a)
    (hdate : endBeforeStart (resolvedStart req a) (resolvedEnd req a) = false)
    (hb : b ∈ db.assignments) (hbid : b.id ≠ i) (hbu : b.userId = a.userId)
    (hbs : b.status = "active") (hbd : b.deletedAt = none)
    (hov : overlapsImpl ⟨resolvedStart req a, resolvedEnd req a⟩
        ⟨b.startDate, b.endDate⟩ = true) :
    updateShiftAssignment i req db = (.conflict, db) := by
  have hsome : (findConflicting db i a.userId
      ⟨resolvedStart req a, resolvedEnd req a⟩).isSome = true := by
    rw [findConflicting, List.find?_isSome]
    exact ⟨b, hb, by simp [hbid, hbu, hbs, hbd, hov]⟩
  obtain ⟨c, hc⟩ := Option.isSome_iff_exists.mp hsome
  unfold updateShiftAssignment
  rw [hfind]
  simp [hdate, hc]

/-- The C4-amended witness store: worker 7 holds assignment 1 (`[40, 50]`)
and assignment 2 (`[10, 60]`), both active and non-deleted. -/
def dbUpdateConflict : Db :=
  { shifts := [⟨1, 1, none⟩],
    assignments :=
      [⟨1, 1, 7, 40, some 50, 3, none, "active", none⟩,
       ⟨2, 2, 7, 10, some 60, 3, none, "active", none⟩] }

/-- Witness for `update_conflict_rejected`: editing assignment 1 to
`[45, 55]` collides with assignment 2 (`[10, 60]`) and is rejected with the
store untouched. -/
theorem update_conflict_rejected_witness :
    (findActive dbUpdateConflict 1 =
        some ⟨1, 1, 7, 40, some 50, 3, none, "active", none⟩
      ∧ endBeforeStart (45 : Int) (some 55) = false
      ∧ (⟨2, 2, 7, 10, some 60, 3, none, "active", none⟩ : Assignment) ∈
          dbUpdateConflict.assignments
      ∧ (2 : Nat) ≠ 1
      ∧ (7 : Nat) = 7
      ∧ ("active" : String) = "active"
      ∧ (none : Option Int) = none
      ∧ overlapsImpl ⟨45, some 55⟩ ⟨10, some 60⟩ = true)
    ∧ updateShiftAssignment 1 ⟨some 45, some 55, none, none, none⟩
        dbUpdateConflict = (.conflict, dbUpdateConflict) :=
  ⟨⟨by decide, by decide, by decide, by decide, rfl, rfl, rfl, by decide⟩,
    update_conflict_rejected 1 ⟨some 45, some 55, none, none, none⟩
      dbUpdateConflict
      ⟨1, 1, 7, 40, some 50, 3, none, "active", none⟩
      ⟨2, 2, 7, 10, some 60, 3, none, "active", none⟩
      (by decide) (by decide) (by decide) (by decide) rfl rfl rfl (by decide)⟩

/-- **C7**.  On an update of an existing non-deleted assignment, omitted
fields default to the stored values (the resulting start/end are
`resolvedStart`/`resolvedEnd`, status/notes/role default through `??`), and
a resulting `endDate` earlier than the resulting `startDate` is rejected
with InvalidInput before any write (the store is returned unchanged). -/
theorem update_defaults_and_validates (i : Nat) (req : UpdateReq) (db : Db)
    (a : Assignment) (hfind : findActive db i = some a) :
    (endBeforeStart (resolvedStart req a) (resolvedEnd req a) = true →
      updateShiftAssignment i req db = (.invalidInput, db))
    ∧ (∀ r db2, updateShiftAssignment i req db = (.success r, db2) →
        r.startDate = resolvedStart req a
        ∧ r.endDate = resolvedEnd req a
        ∧ r.status = req.status.getD a.status
        ∧ r.notes = (match req.notes with
            | some n => some n
            | none => a.notes)
        ∧ r.roleId = req.roleId.getD a.roleId
        ∧ r.id = a.id ∧ r.shiftId = a.shiftId ∧ r.userId = a.userId) := by
  constructor
  · intro hbad
    unfold updateShiftAssignment
    rw [hfind]
    simp [hbad]
  · intro r db2 hsucc
    unfold updateShiftAssignment at hsucc
    rw [hfind] at hsucc
    by_cases hbad :
        endBeforeStart (resolvedStart req a) (resolvedEnd req a) = true
    · simp [hbad] at hsucc
    · rw [Bool.not_eq_true] at hbad
      simp only [hbad, Bool.false_eq_true, if_false] at hsucc
      cases hc : findConflicting db i a.userId
          ⟨resolvedStart req a, resolvedEnd req a⟩ with
      | some c => rw [hc] at hsucc; simp at hsucc
      | none =>
        rw [hc] at hsucc
        simp only [Prod.mk.injEq, UpdateRes.success.injEq] at hsucc
        obtain ⟨hr, _⟩ := hsucc
        subst hr
        exact ⟨rfl, rfl, rfl, rfl, rfl, rfl, rfl, rfl⟩

/-! ## Helper lemmas on id-keyed single-record writes -/

lemma find?_map_of_stable {α : Type} (p : α → Bool) (f : α → α) :
    ∀ (l : List α) (a : α), l.find? p = some a →
      (∀ b ∈ l, p b = false → p (f b) = false) →
      p (f a) = true →
      (l.map f).find? p = some (f a)
  | [], a, h, _, _ => by simp at h
  | x :: xs, a, h, hstable, hpa => by
    cases hx : p x with
    | true =>
      rw [List.find?_cons_of_pos _ hx] at h
      injection h with h
      subst h
      rw [List.map_cons, List.find?_cons_of_pos _ hpa]
    | false =>
      rw [List.find?_cons_of_neg _ (by simp [hx])] at h
      rw [List.map_cons,
        List.find?_cons_of_neg _
          (by simp [hstable x (List.mem_cons_self x xs) hx])]
      exact find?_map_of_stable p f xs a h
        (fun b hb hpb => hstable b (List.mem_cons_of_mem x hb) hpb) hpa

lemma findActive_map_replace (l : List Assignment) (i : Nat)
    (a u : Assignment)
    (hfind : l.find? (fun x => x.id == i && x.deletedAt.isNone) = some a)
    (hnd : (l.map (·.id)).Nodup)
    (huid : u.id = i) (hudel : u.deletedAt = none) :
    (l.map (fun b => if b.id == i then u else b)).find?
      (fun x => x.id == i && x.deletedAt.isNone) = some u := by
  have hamem := List.mem_of_find?_eq_some hfind
  have hpa := List.find?_some hfind
  have haid : a.id = i := by simpa using ((Bool.and_eq_true _ _).mp hpa).1
  have hfa : (if a.id == i then u else a) = u := by simp [haid]
  have hstable : ∀ b ∈ l,
      (b.id == i && b.deletedAt.isNone) = false →
      ((if b.id == i then u else b).id == i &&
        (if b.id == i then u else b).deletedAt.isNone) = false := by
    intro b hb hpb
    by_cases hbid : b.id = i
    · exfalso
      have hba : b = a :=
        List.inj_on_of_nodup_map hnd hb hamem (by rw [hbid, haid])
      rw [hba, hpa] at hpb
      cases hpb
    · simpa [hbid] using hpb
  have h := find?_map_of_stable _ _ l a hfind hstable
    (by rw [hfa]; simp [huid, hudel])
  rw [hfa] at h
  exact h

lemma findActive_map_replace_deleted (l : List Assignment) (i : Nat)
    (u : Assignment) (t : Int) (hudel : u.deletedAt = some t) :
    (l.map (fun b => if b.id == i then u else b)).find?
      (fun x => x.id == i && x.deletedAt.isNone) = none := by
  rw [List.find?_eq_none]
  intro x hx
  obtain ⟨b, hb, rfl⟩ := List.mem_map.mp hx
  by_cases hbid : b.id = i
  · simp [hbid, hudel]
  · simp [hbid]

lemma map_replace_twice_id (l : List Assignment) (i : Nat)
    (a u v : Assignment)
    (hamem : a ∈ l) (haid : a.id = i)
    (hnd : (l.map (·.id)).Nodup)
    (huid : u.id = i) (hva : v = a) :
    (l.map (fun b => if b.id == i then u else b)).map
      (fun b => if b.id == i then v else b) = l := by
  rw [List.map_map]
  have hpt : ∀ b ∈ l, ((fun b => if b.id == i then v else b) ∘
      (fun b => if b.id == i then u else b)) b = b := by
    intro b hb
    by_cases hbid : b.id = i
    · have hba : b = a :=
        List.inj_on_of_nodup_map hnd hb hamem (by rw [hbid, haid])
      subst hba
      simp only [Function.comp_apply]
      rw [if_pos (beq_iff_eq.mpr hbid), if_pos (beq_iff_eq.mpr huid)]
      exact hva
    · simp only [Function.comp_apply]
      rw [if_neg (by simp [hbid]), if_neg (by simp [hbid])]
  rw [List.map_congr_left hpt, List.map_id']

/-- **C8**.  On an existing non-deleted assignment whose status is `active`
or `inactive` (in a store with distinct record ids), toggling flips exactly
the status field — the write touches nothing else and performs no range
re-validation, succeeding unconditionally — and toggling twice returns the
record, and indeed the whole store, to its original state. -/
theorem toggle_twice_restores (db : Db) (i : Nat) (a : Assignment)
    (hfind : findActive db i = some a)
    (hstat : a.status = "active" ∨ a.status = "inactive")
    (hnd : (db.assignments.map (·.id)).Nodup) :
    (toggleShiftAssignmentStatus i db).1 =
      .success { a with status := flipStatus a.status }
    ∧ (toggleShiftAssignmentStatus i db).2.assignments =
        db.assignments.map (fun b => if b.id == i then
          { a with status := flipStatus a.status } else b)
    ∧ (toggleShiftAssignmentStatus i
        (toggleShiftAssignmentStatus i db).2).1 = .success a
    ∧ (toggleShiftAssignmentStatus i
        (toggleShiftAssignmentStatus i db).2).2 = db := by
  have hpa := List.find?_some hfind
  have haid : a.id = i := by simpa using ((Bool.and_eq_true _ _).mp hpa).1
  have hadel : a.deletedAt = none := by
    simpa using ((Bool.and_eq_true _ _).mp hpa).2
  have hamem : a ∈ db.assignments := List.mem_of_find?_eq_some hfind
  have hflip2 : flipStatus (flipStatus a.status) = a.status := by
    rcases hstat with h | h <;> rw [h] <;> rfl
  have h1 : toggleShiftAssignmentStatus i db =
      (.success { a with status := flipStatus a.status },
        { db with assignments := db.assignments.map (fun b =>
            if b.id == i then { a with status := flipStatus a.status }
            else b) }) := by
    unfold toggleShiftAssignmentStatus
    rw [hfind]
  have hfind1 : findActive
      { db with assignments := db.assignments.map (fun b =>
          if b.id == i then { a with status := flipStatus a.status }
          else b) } i =
      some { a with status := flipStatus a.status } := by
    unfold findActive
    exact findActive_map_replace db.assignments i a _ hfind hnd haid hadel
  have h2 : toggleShiftAssignmentStatus i
      { db with assignments := db.assignments.map (fun b =>
          if b.id == i then { a with status := flipStatus a.status }
          else b) } =
      (.success { a with status := flipStatus (flipStatus a.status) },
        { db with assignments := (db.assignments.map (fun b =>
            if b.id == i then { a with status := flipStatus a.status }
            else b)).map (fun b => if b.id == i then
              { a with status := flipStatus (flipStatus a.status)}
            else b) }) := by
    unfold toggleShiftAssignmentStatus
    rw [hfind1]
  have hrestore : (db.assignments.map (fun b =>
      if b.id == i then { a with status := flipStatus a.status }
      else b)).map (fun b => if b.id == i then
        { a with status := flipStatus (flipStatus a.status)} else b) =
      db.assignments :=
    map_replace_twice_id db.assignments i a _ _ hamem haid hnd haid
      (by rw [hflip2])
  refine ⟨?_, ?_, ?_, ?_⟩
  · rw [h1]
  · rw [h1]
  · rw [h1, h2, hflip2]
  · rw [h1, h2, hrestore]

/-- The C8 witness store: two records with distinct ids; record 1 (worker
7) is active and will be toggled. -/
def dbToggle : Db :=
  { shifts := [⟨1, 1, none⟩],
    assignments :=
      [⟨1, 1, 7, 0, some 10, 3, none, "active", none⟩,
       ⟨2, 1, 8, 0, some 10, 3, none, "inactive", none⟩] }

/-- Witness for `toggle_twice_restores`: toggling record 1 of `dbToggle`
twice restores the store. -/
theorem toggle_twice_restores_witness :
    (findActive dbToggle 1 =
        some ⟨1, 1, 7, 0, some 10, 3, none, "active", none⟩
      ∧ (("active" : String) = "active" ∨ ("active" : String) = "inactive")
      ∧ (dbToggle.assignments.map (·.id)).Nodup)
    ∧ ((toggleShiftAssignmentStatus 1 dbToggle).1 =
        .success ⟨1, 1, 7, 0, some 10, 3, none, flipStatus "active", none⟩
      ∧ (toggleShiftAssignmentStatus 1 dbToggle).2.assignments =
          dbToggle.assignments.map (fun b => if b.id == 1 then
            ⟨1, 1, 7, 0, some 10, 3, none, flipStatus "active", none⟩ else b)
      ∧ (toggleShiftAssignmentStatus 1
          (toggleShiftAssignmentStatus 1 dbToggle).2).1 =
          .success ⟨1, 1, 7, 0, some 10, 3, none, "active", none⟩
      ∧ (toggleShiftAssignmentStatus 1
          (toggleShiftAssignmentStatus 1 dbToggle).2).2 = dbToggle) :=
  ⟨⟨by decide, Or.inl rfl, by decide⟩,
    toggle_twice_restores dbToggle 1
      ⟨1, 1, 7, 0, some 10, 3, none, "active", none⟩
      (by decide) (Or.inl rfl) (by decide)⟩

/-- The request of the C7 witness: only `endDate` supplied (set to 30,
which lands before the stored start 40). -/
def reqEndOnly : UpdateReq := ⟨none, some 30, none, none, none⟩

/-- The record being edited in the C7 witness. -/
def recEdited : Assignment := ⟨1, 1, 7, 40, some 50, 3, none, "active", none⟩

/-- Witness for `update_defaults_and_validates`: with only `endDate = 30`
supplied, the start defaults to the stored 40 and the request is rejected
as end-before-start. -/
theorem update_defaults_and_validates_witness :
    findActive dbUpdateConflict 1 = some recEdited
    ∧ ((endBeforeStart (resolvedStart reqEndOnly recEdited)
          (resolvedEnd reqEndOnly recEdited) = true →
        updateShiftAssignment 1 reqEndOnly dbUpdateConflict =
          (.invalidInput, dbUpdateConflict))
      ∧ (∀ r db2,
          updateShiftAssignment 1 reqEndOnly dbUpdateConflict =
            (.success r, db2) →
          r.startDate = resolvedStart reqEndOnly recEdited
          ∧ r.endDate = resolvedEnd reqEndOnly recEdited
          ∧ r.status = reqEndOnly.status.getD recEdited.status
          ∧ r.notes = (match reqEndOnly.notes with
              | some n => some n
              | none => recEdited.notes)
          ∧ r.roleId = reqEndOnly.roleId.getD recEdited.roleId
          ∧ r.id = recEdited.id ∧ r.shiftId = recEdited.shiftId
          ∧ r.userId = recEdited.userId)) :=
  ⟨by decide,
    update_defaults_and_validates 1 reqEndOnly dbUpdateConflict recEdited
      (by decide)⟩

/-- One stored record blocking one requested worker: the record blocks
worker `u` iff it belongs to `u`, `u` is requested, it is active and
non-deleted, and it is either on the requested shift (duplicate) or passes
the implemented overlap test — exactly the union of the two conflict
queries of lines 69-104, restricted to one record. -/
def blocksRec (req : CreateReq) (u : Nat) (b : Assignment) : Bool :=
  b.userId == u && req.userIds.contains b.userId && b.status == "active" &&
    b.deletedAt.isNone &&
    (b.shiftId == req.shiftId ||
      overlapsImpl (candRange req) ⟨b.startDate, b.endDate⟩)

lemma contains_after_replace_false (l : List Assignment) (i : Nat)
    (m : Assignment) (q : Assignment → Bool) (u : Nat)
    (hqm : q m = false)
    (hres : ∀ b ∈ l, b.id ≠ i → q b = true → b.userId = u → False) :
    (((l.map (fun b => if b.id == i then m else b)).filter q).map
      (·.userId)).contains u = false := by
  by_contra hc
  rw [Bool.not_eq_false] at hc
  have hmem : u ∈ ((l.map (fun b => if b.id == i then m else b)).filter
      q).map (·.userId) := by
    simpa using hc
  obtain ⟨x, hxf, hxu⟩ := List.mem_map.mp hmem
  obtain ⟨hxmem, hxq⟩ := List.mem_filter.mp hxf
  obtain ⟨b, hb, rfl⟩ := List.mem_map.mp hxmem
  by_cases hbid : b.id = i
  · rw [if_pos (beq_iff_eq.mpr hbid)] at hxq
    rw [hxq] at hqm
    cases hqm
  · rw [if_neg (by simp [hbid])] at hxq hxu
    exact hres b hb hbid hxq hxu

/-- **C6**.  Soft delete on an existing non-deleted assignment: returns ok
and rewrites exactly that record with `deleted_at = now` and
`status = "inactive"`; a second delete of the same id fails NotFound and
changes nothing; and the deleted record is excluded from every later
create-conflict check — if every record blocking worker `u` for a candidate
request was the deleted record (by id), then `u` is no longer blocked after
the deletion. -/
theorem delete_soft_and_unblocks (db : Db) (i : Nat) (t t2 : Int)
    (a : Assignment) (hfind : findActive db i = some a) :
    (deleteShiftAssignment i t db).1 = .ok
    ∧ (deleteShiftAssignment i t db).2.assignments =
        db.assignments.map (fun b => if b.id == i then
          { a with deletedAt := some t, status := "inactive" } else b)
    ∧ deleteShiftAssignment i t2 (deleteShiftAssignment i t db).2 =
        (.notFound, (deleteShiftAssignment i t db).2)
    ∧ ∀ (req : CreateReq) (u : Nat),
        (∀ b ∈ db.assignments, blocksRec req u b = true → b.id = i) →
        blocksUser (deleteShiftAssignment i t db).2 req u = false := by
  have h1 : deleteShiftAssignment i t db =
      (.ok, { db with assignments := db.assignments.map (fun b =>
          if b.id == i then
            { a with deletedAt := some t, status := "inactive" }
          else b) }) := by
    unfold deleteShiftAssignment
    rw [hfind]
  have hfindnone : findActive
      { db with assignments := db.assignments.map (fun b =>
          if b.id == i then
            { a with deletedAt := some t, status := "inactive" }
          else b) } i = none := by
    unfold findActive
    exact findActive_map_replace_deleted db.assignments i _ t rfl
  refine ⟨by rw [h1], by rw [h1], ?_, ?_⟩
  · rw [h1]
    unfold deleteShiftAssignment
    rw [hfindnone]
  · intro req u honly
    rw [h1, blocksUser, Bool.or_eq_false_iff]
    constructor
    · refine contains_after_replace_false db.assignments i _ _ u
        (by simp) ?_
      intro b hb hbid hq hbu
      refine absurd (honly b hb ?_) hbid
      simp only [Bool.and_eq_true] at hq
      obtain ⟨⟨⟨hq1, hq2⟩, hq3⟩, hq4⟩ := hq
      have hu : u ∈ req.userIds := by rw [← hbu]; simpa using hq2
      simp [blocksRec, hbu, hq1, hq2, hq3, hq4, hu]
    · refine contains_after_replace_false db.assignments i _ _ u
        (by simp) ?_
      intro b hb hbid hq hbu
      refine absurd (honly b hb ?_) hbid
      simp only [Bool.and_eq_true] at hq
      obtain ⟨⟨⟨hq1, hq2⟩, hq3⟩, hq4⟩ := hq
      have hu : u ∈ req.userIds := by rw [← hbu]; simpa using hq1
      simp [blocksRec, hbu, hq1, hq2, hq3, hq4, hu]

/-- The C6 witness store: worker 7 active on shift 1 over `[0, 100]`. -/
def dbDelete : Db :=
  { shifts := [⟨1, 1, none⟩, ⟨2, 1, none⟩],
    assignments := [⟨1, 1, 7, 0, some 100, 3, none, "active", none⟩] }

/-- Witness for `delete_soft_and_unblocks` at `dbDelete`, deleting record 1
at time 500 (second attempt at 600). -/
theorem delete_soft_and_unblocks_witness :
    findActive dbDelete 1 =
      some ⟨1, 1, 7, 0, some 100, 3, none, "active", none⟩
    ∧ ((deleteShiftAssignment 1 500 dbDelete).1 = .ok
      ∧ (deleteShiftAssignment 1 500 dbDelete).2.assignments =
          dbDelete.assignments.map (fun b => if b.id == 1 then
            ⟨1, 1, 7, 0, some 100, 3, none, "inactive", some 500⟩ else b)
      ∧ deleteShiftAssignment 1 600 (deleteShiftAssignment 1 500 dbDelete).2 =
          (.notFound, (deleteShiftAssignment 1 500 dbDelete).2)
      ∧ ∀ (req : CreateReq) (u : Nat),
          (∀ b ∈ dbDelete.assignments, blocksRec req u b = true → b.id = 1) →
          blocksUser (deleteShiftAssignment 1 500 dbDelete).2 req u = false) :=
  ⟨by decide,
    delete_soft_and_unblocks dbDelete 1 500 600
      ⟨1, 1, 7, 0, some 100, 3, none, "active", none⟩ (by decide)⟩
